import Mathlib

/-!
Shallow embedding of the asset-tracker valuation core
(src/asset_tracker/models/portfolio.py, src/asset_tracker/portfolio_manager.py,
src/asset_tracker/services/exchange_rates.py).

Python floats are modelled as exact rationals; Python dicts as association
lists with dict-assignment semantics (replace the first matching key in
place, append otherwise); a Python method that may raise is modelled as a
function returning the post-call state together with an optional error.
-/

namespace AssetTracker

/-- Lookup in an association list, reading the first matching key
(the only one a Python dict can hold). -/
def dictGet {α : Type} (l : List (String × α)) (k : String) : Option α :=
  match l with
  | [] => none
  | (k1, v) :: t => if k1 = k then some v else dictGet t k

/-- Python dict assignment: replace the first entry with this key in place,
append at the end when the key is absent. -/
def dictInsert {α : Type} (l : List (String × α)) (k : String) (v : α) :
    List (String × α) :=
  match l with
  | [] => [(k, v)]
  | (k1, v1) :: t => if k1 = k then (k, v) :: t else (k1, v1) :: dictInsert t k v

/-- Number of entries carrying a given key. -/
def countKey {α : Type} (l : List (String × α)) (k : String) : Nat :=
  (l.filter (fun kv => kv.1 = k)).length

/-- models/portfolio.py Stock. -/
structure Stock where
  name : String
  code : String
  quantity : ℚ
  cost : ℚ
  price : Option ℚ := none
deriving Repr, DecidableEq

/-- Stock.market_value: quantity × price when a price is present. -/
def Stock.market_value (s : Stock) : Option ℚ :=
  s.price.map (fun p => s.quantity * p)

/-- models/portfolio.py CashHoldings. -/
structure CashHoldings where
  USD : ℚ := 0
  HKD : ℚ := 0
  CNY : ℚ := 0
deriving Repr, DecidableEq

/-- Exchange-rate mapping currency → units per USD, as passed around as a
plain dict in the source. -/
abbrev RateMap := List (String × ℚ)

/-- exchange_rates.get(currency, 1): absent currencies default to rate 1. -/
def rateGet (rates : RateMap) (c : String) : ℚ :=
  (dictGet rates c).getD 1

/-- CashHoldings.total_in_currency; the unsupported-currency ValueError is
the none result. -/
def CashHoldings.total_in_currency (c : CashHoldings) (currency : String)
    (rates : RateMap) : Option ℚ :=
  if currency = "USD" then
    some (c.USD + c.HKD / rateGet rates "HKD" + c.CNY / rateGet rates "CNY")
  else if currency = "HKD" then
    some (c.HKD + c.USD * rateGet rates "HKD" +
      c.CNY * rateGet rates "HKD" / rateGet rates "CNY")
  else if currency = "CNY" then
    some (c.CNY + c.USD * rateGet rates "CNY" +
      c.HKD * rateGet rates "CNY" / rateGet rates "HKD")
  else none

/-- models/portfolio.py TotalAssets: undefined until computed. -/
structure TotalAssets where
  USD : Option ℚ := none
  HKD : Option ℚ := none
  CNY : Option ℚ := none
deriving Repr, DecidableEq

/-- models/portfolio.py StockHoldings: three code-keyed dicts. -/
structure StockHoldings where
  AShares : List (String × Stock) := []
  USStocks : List (String × Stock) := []
  HKStocks : List (String × Stock) := []
deriving Repr, DecidableEq

/-- Body of total_value_by_market after market dispatch: the list of market
values; None in the list makes the whole sum None, else the float sum. -/
def sumValues (l : List Stock) : Option ℚ :=
  let values := l.map Stock.market_value
  if none ∈ values then none else some values.reduceOption.sum

/-- The stocks of one market (dict values, in insertion order); none models
the ValueError for an unknown market. -/
def StockHoldings.marketStocks (h : StockHoldings) (m : String) :
    Option (List Stock) :=
  if m = "AShares" then some (h.AShares.map Prod.snd)
  else if m = "USStocks" then some (h.USStocks.map Prod.snd)
  else if m = "HKStocks" then some (h.HKStocks.map Prod.snd)
  else none

/-- StockHoldings.total_value_by_market: outer none is the unknown-market
ValueError, inner none the unresolved-price case. -/
def StockHoldings.total_value_by_market (h : StockHoldings) (m : String) :
    Option (Option ℚ) :=
  (h.marketStocks m).map sumValues

/-- The dict built by StockHoldings.total_value. -/
structure MarketValues where
  AShares : Option ℚ
  USStocks : Option ℚ
  HKStocks : Option ℚ
deriving Repr, DecidableEq

/-- StockHoldings.total_value: the three markets are passed as literals, so
the unknown-market branch cannot fire and getD extracts the value. -/
def StockHoldings.total_value (h : StockHoldings) : MarketValues :=
  { AShares := (h.total_value_by_market "AShares").getD none
    USStocks := (h.total_value_by_market "USStocks").getD none
    HKStocks := (h.total_value_by_market "HKStocks").getD none }

/-- Spec-side helper (not from the source): the holdings with one market
emptied, used to state that a market whose aggregate is unresolved
contributes exactly 0 to the valuation. -/
def StockHoldings.clearMarket (h : StockHoldings) (m : String) :
    StockHoldings :=
  if m = "AShares" then { h with AShares := [] }
  else if m = "USStocks" then { h with USStocks := [] }
  else if m = "HKStocks" then { h with HKStocks := [] }
  else h

/-- models/portfolio.py PortfolioDay; its fields are exactly cash,
totalAssets and stocks. -/
structure PortfolioDay where
  cash : CashHoldings := {}
  totalAssets : TotalAssets := {}
  stocks : StockHoldings := {}
deriving Repr, DecidableEq

/-- PortfolioDay.update_total_assets; the call total_in_currency("USD", ...)
always returns a value, which getD extracts. -/
def PortfolioDay.update_total_assets (day : PortfolioDay) (rates : RateMap) :
    PortfolioDay :=
  let stock_values := day.stocks.total_value
  let usd_stocks := stock_values.USStocks.getD 0
  let cny_in_usd := stock_values.AShares.getD 0 / rateGet rates "CNY"
  let hkd_in_usd := stock_values.HKStocks.getD 0 / rateGet rates "HKD"
  let usd_total := usd_stocks + cny_in_usd + hkd_in_usd +
    (day.cash.total_in_currency "USD" rates).getD 0
  let cny_total := usd_total * rateGet rates "CNY"
  let hkd_total := usd_total * rateGet rates "HKD"
  { day with totalAssets :=
      { USD := some usd_total, HKD := some hkd_total, CNY := some cny_total } }

/-- models/portfolio.py Portfolio: date-string keyed dict of days. -/
structure Portfolio where
  data : List (String × PortfolioDay) := []
deriving Repr, DecidableEq

/-- Portfolio.add_day. -/
def Portfolio.add_day (p : Portfolio) (d : String) (day : PortfolioDay) :
    Portfolio :=
  ⟨dictInsert p.data d day⟩

/-- Portfolio.get_day. -/
def Portfolio.get_day (p : Portfolio) (d : String) : Option PortfolioDay :=
  dictGet p.data d

/-- PortfolioManager.create_portfolio_day, as state passing: the returned
day together with the portfolio after the call. -/
def create_portfolio_day (p : Portfolio) (date_str : String) :
    PortfolioDay × Portfolio :=
  match p.get_day date_str with
  | some existing_day => (existing_day, p)
  | none => (({} : PortfolioDay), p.add_day date_str {})

/-- PortfolioManager.update_cash: the portfolio after the call together with
the ValueError message when one is raised. -/
def update_cash (p : Portfolio) (date_str currency : String) (amount : ℚ) :
    Portfolio × Option String :=
  let dp := match p.get_day date_str with
    | some day => (day, p)
    | none => create_portfolio_day p date_str
  let day := dp.1
  let p1 := dp.2
  if currency = "USD" then
    (p1.add_day date_str { day with cash := { day.cash with USD := amount } }, none)
  else if currency = "HKD" then
    (p1.add_day date_str { day with cash := { day.cash with HKD := amount } }, none)
  else if currency = "CNY" then
    (p1.add_day date_str { day with cash := { day.cash with CNY := amount } }, none)
  else (p1, some ("Unsupported currency: " ++ currency))

/-- PortfolioManager.add_stock: the portfolio after the call together with
the ValueError message when one is raised. -/
def add_stock (p : Portfolio) (date_str market : String) (s : Stock) :
    Portfolio × Option String :=
  let dp := match p.get_day date_str with
    | some day => (day, p)
    | none => create_portfolio_day p date_str
  let day := dp.1
  let p1 := dp.2
  if market = "AShares" then
    (p1.add_day date_str
      { day with stocks :=
          { day.stocks with AShares := dictInsert day.stocks.AShares s.code s } }, none)
  else if market = "USStocks" then
    (p1.add_day date_str
      { day with stocks :=
          { day.stocks with USStocks := dictInsert day.stocks.USStocks s.code s } }, none)
  else if market = "HKStocks" then
    (p1.add_day date_str
      { day with stocks :=
          { day.stocks with HKStocks := dictInsert day.stocks.HKStocks s.code s } }, none)
  else (p1, some ("Unknown market: " ++ market))

/-- PortfolioManager.update_total_assets for an explicit date; the rates
argument stands for the snapshot returned by the exchange-rate service
(a network call outside the model). The mutated day is written back. -/
def manager_update_total_assets (p : Portfolio) (date_str : String)
    (rates : RateMap) : Portfolio :=
  match p.get_day date_str with
  | some day => p.add_day date_str (day.update_total_assets rates)
  | none =>
    let dp := create_portfolio_day p date_str
    dp.2.add_day date_str (dp.1.update_total_assets rates)

/-! Batch update (PortfolioManager.update_all_dates). The per-date work
(price refresh and valuation refresh, both ending in network calls) is
abstracted by an oracle saying whether processing that date raises; the
try/except in the loop records False for a raising date and continues. -/

/-- Python truthiness of an optional string (None and the empty string are
falsy). -/
def optTruthy : Option String → Bool
  | none => false
  | some s => s != ""

/-- The date-range filter of update_all_dates: skip when before a truthy
start_date or after a truthy end_date. -/
def keepDate (start_date end_date : Option String) (d : String) : Bool :=
  !(optTruthy start_date && decide (d < start_date.getD "")) &&
  !(optTruthy end_date && decide (end_date.getD "" < d))

/-- The update loop: one results entry per date, True unless that date's
processing raised; a raise is caught and the loop continues. -/
def batchResults (dates : List String) (fails : String → Bool) :
    List (String × Bool) :=
  match dates with
  | [] => []
  | d :: rest => (d, !fails d) :: batchResults rest fails

/-- PortfolioManager.update_all_dates: the per-date results dict together
with the number of save calls performed. -/
def update_all_dates (p : Portfolio) (start_date end_date : Option String)
    (fails : String → Bool) : List (String × Bool) × Nat :=
  let all_dates := (p.data.map Prod.fst).mergeSort (fun a b => a ≤ b)
  if all_dates.isEmpty then ([], 0)
  else
    let dates_to_update :=
      if optTruthy start_date || optTruthy end_date then
        all_dates.filter (keepDate start_date end_date)
      else all_dates
    (batchResults dates_to_update fails, 1)

/-! Exchange-rate service (services/exchange_rates.py). The module-level
cache and clock become explicit state; one upstream request per call is
modelled by its outcome. The string timestamp field of the response and
cache aliasing through the returned dict are not modelled. -/

/-- The rate payload dict: the fields the module reads and writes. -/
structure RateData where
  result : String := ""
  provider : String := ""
  base : String := ""
  rates : List (String × ℚ) := []
  filtered_rates : Option (List (String × ℚ)) := none
deriving Repr, DecidableEq

instance : Inhabited RateData := ⟨{}⟩

/-- The module-level cache dict and last-update timestamp (seconds). -/
structure RateCacheState where
  cache : List (String × RateData) := []
  last_update : Option Nat := none
deriving Repr, DecidableEq

/-- Outcome of the one requests.get call: failure is a raised exception
(network error or bad payload), response carries the HTTP status and the
decoded body. -/
inductive ProviderResult where
  | failure : ProviderResult
  | response (status : Nat) (data : RateData) : ProviderResult
deriving Repr, DecidableEq

/-- The provider failed: exception, or a non-200 status. -/
def providerFails : ProviderResult → Bool
  | .failure => true
  | .response status _ => status != 200

/-- Python truthiness of the optional target-currency list. -/
def listTruthy : Option (List String) → Bool
  | none => false
  | some l => !l.isEmpty

/-- Keep the rates whose currency is among the targets. -/
def filterRates (rates : List (String × ℚ)) (targets : List String) :
    List (String × ℚ) :=
  rates.filter (fun kv => targets.contains kv.1)

/-- Attach filtered_rates when target currencies were requested, as both the
cache-hit and the fresh-fetch paths do. -/
def withFilter (data : RateData) (targets : Option (List String)) : RateData :=
  if listTruthy targets then
    { data with filtered_rates := some (filterRates data.rates (targets.getD [])) }
  else data

/-- The static default table of _get_default_exchange_rates
(7.8 = 39/5, 0.92 = 23/25, 0.79 = 79/100 as exact rationals). -/
def defaultRatesFull : List (String × ℚ) :=
  [("USD", 1), ("CNY", 7), ("HKD", 39/5), ("EUR", 23/25), ("GBP", 79/100),
   ("JPY", 150)]

/-- The base-currency adjustment of _get_default_exchange_rates. -/
def adjustRates (base_currency : String) : List (String × ℚ) :=
  if base_currency ≠ "USD" ∧ (dictGet defaultRatesFull base_currency).isSome then
    let base_rate := (dictGet defaultRatesFull base_currency).getD 1
    dictInsert (defaultRatesFull.map (fun kv => (kv.1, kv.2 / base_rate)))
      base_currency 1
  else defaultRatesFull

/-- _get_default_exchange_rates. -/
def getDefaultExchangeRates (base_currency : String)
    (targets : Option (List String)) : RateData :=
  let adjusted := adjustRates base_currency
  { result := "success", provider := "default", base := base_currency,
    rates := adjusted,
    filtered_rates :=
      if listTruthy targets then some (filterRates adjusted (targets.getD []))
      else none }

/-- The cache-hit test of get_exchange_rates: a last update strictly under
one hour old and the key present. -/
def cacheHit (st : RateCacheState) (now : Nat) (cache_key : String) : Bool :=
  st.last_update.isSome && decide (now - st.last_update.getD 0 < 3600) &&
  (dictGet st.cache cache_key).isSome

/-- get_exchange_rates: returns the payload and the cache state after the
call. -/
def get_exchange_rates (st : RateCacheState) (now : Nat) (pr : ProviderResult)
    (date_str base_currency : String) (targets : Option (List String)) :
    RateData × RateCacheState :=
  let cache_key := date_str ++ "_" ++ base_currency
  if cacheHit st now cache_key then
    (withFilter ((dictGet st.cache cache_key).getD default) targets, st)
  else
    match pr with
    | .failure => (getDefaultExchangeRates base_currency targets, st)
    | .response status data =>
      if status = 200 then
        let data2 := withFilter data targets
        (data2, { cache := dictInsert st.cache cache_key data2,
                  last_update := some now })
      else (getDefaultExchangeRates base_currency targets, st)

/-! ### Association-list lemmas -/

theorem dictGet_dictInsert_self {α : Type} (l : List (String × α)) (k : String)
    (v : α) : dictGet (dictInsert l k v) k = some v := by
  induction l with
  | nil => simp [dictInsert, dictGet]
  | cons hd t ih =>
    obtain ⟨k1, v1⟩ := hd
    by_cases hk : k1 = k
    · simp [dictInsert, hk, dictGet]
    · simp [dictInsert, hk, dictGet, ih]

/-! ### C6, C9, C10, C7 -/

/-- C6: for every cash holding and rate map containing HKD and CNY rates,
the cash total in USD is cash.USD + cash.HKD/rates[HKD] + cash.CNY/rates[CNY]. -/
theorem cash_total_usd (c : CashHoldings) (rates : RateMap) (rH rC : ℚ)
    (hH : dictGet rates "HKD" = some rH) (hC : dictGet rates "CNY" = some rC) :
    c.total_in_currency "USD" rates = some (c.USD + c.HKD / rH + c.CNY / rC) := by
  simp [CashHoldings.total_in_currency, rateGet, hH, hC]

/-- Witness for C6 at the concrete data of the spec's round-trip test:
cash of 10000 in each currency, rates CNY 7.0 and HKD 7.8. -/
theorem cash_total_usd_witness :
    CashHoldings.total_in_currency ⟨10000, 10000, 10000⟩ "USD"
        [("CNY", 7), ("HKD", 39/5)] =
      some (10000 + 10000 / (39/5) + 10000 / 7) :=
  cash_total_usd ⟨10000, 10000, 10000⟩ [("CNY", 7), ("HKD", 39/5)] (39/5) 7
    rfl rfl

/-- C9: get-or-create of a portfolio day is idempotent: a second call
returns the identical result, an existing day is returned with the
portfolio untouched, and a missing day is created zero-valued. -/
theorem create_portfolio_day_idempotent (p : Portfolio) (d : String) :
    create_portfolio_day (create_portfolio_day p d).2 d =
      create_portfolio_day p d ∧
    (∀ day0, p.get_day d = some day0 → create_portfolio_day p d = (day0, p)) ∧
    (p.get_day d = none →
      create_portfolio_day p d = ({}, p.add_day d {})) := by
  refine ⟨?_, ?_, ?_⟩
  · cases h : dictGet p.data d with
    | some day => simp [create_portfolio_day, Portfolio.get_day, h]
    | none =>
      simp [create_portfolio_day, Portfolio.get_day, Portfolio.add_day, h,
        dictGet_dictInsert_self]
  · intro day0 h
    simp only [Portfolio.get_day] at h
    simp [create_portfolio_day, Portfolio.get_day, h]
  · intro h
    simp only [Portfolio.get_day] at h
    simp [create_portfolio_day, Portfolio.get_day, h]

/-- Witness for C9 on the empty portfolio. -/
theorem create_portfolio_day_idempotent_witness :
    create_portfolio_day (create_portfolio_day ⟨[]⟩ "2025-03-01").2 "2025-03-01" =
      create_portfolio_day ⟨[]⟩ "2025-03-01" :=
  (create_portfolio_day_idempotent ⟨[]⟩ "2025-03-01").1

/-- C10: on a date not yet in the portfolio, a setCash call with an
unsupported currency (and an upsertStock call with an unknown market)
inserts a fresh zero-valued day before raising, so the failed call still
changes portfolio membership. -/
theorem error_path_creates_day (p : Portfolio) (d cur m : String) (amt : ℚ)
    (s : Stock) (hd : p.get_day d = none)
    (hc1 : cur ≠ "USD") (hc2 : cur ≠ "HKD") (hc3 : cur ≠ "CNY")
    (hm1 : m ≠ "AShares") (hm2 : m ≠ "USStocks") (hm3 : m ≠ "HKStocks") :
    (update_cash p d cur amt).2 = some ("Unsupported currency: " ++ cur) ∧
    (update_cash p d cur amt).1.get_day d = some {} ∧
    (add_stock p d m s).2 = some ("Unknown market: " ++ m) ∧
    (add_stock p d m s).1.get_day d = some {} := by
  simp only [Portfolio.get_day] at hd
  refine ⟨?_, ?_, ?_, ?_⟩ <;>
    simp [update_cash, add_stock, create_portfolio_day, hd, hc1, hc2, hc3,
      hm1, hm2, hm3, Portfolio.get_day, Portfolio.add_day,
      dictGet_dictInsert_self]

/-- Witness for C10: setCash with EUR on a fresh date creates the day. -/
theorem error_path_creates_day_witness :
    (update_cash ⟨[]⟩ "2025-03-01" "EUR" 100).1.get_day "2025-03-01" =
      some {} :=
  (error_path_creates_day ⟨[]⟩ "2025-03-01" "EUR" "Crypto" 100
      ⟨"n", "c", 1, 1, none⟩ rfl (by decide) (by decide) (by decide)
      (by decide) (by decide) (by decide)).2.1

/-- C7: setCash with a currency outside USD/HKD/CNY raises and leaves the
day's cash unchanged; with a supported currency it overwrites exactly that
balance and leaves the other two unchanged. -/
theorem update_cash_spec (p : Portfolio) (d cur : String) (amt : ℚ) :
    ((cur ≠ "USD" ∧ cur ≠ "HKD" ∧ cur ≠ "CNY") →
      (update_cash p d cur amt).2 = some ("Unsupported currency: " ++ cur) ∧
      ((update_cash p d cur amt).1.get_day d).map PortfolioDay.cash =
        some ((p.get_day d).getD {}).cash) ∧
    (cur = "USD" →
      (update_cash p d cur amt).2 = none ∧
      (update_cash p d cur amt).1.get_day d =
        some { (p.get_day d).getD {} with
               cash := { ((p.get_day d).getD {}).cash with USD := amt } }) ∧
    (cur = "HKD" →
      (update_cash p d cur amt).2 = none ∧
      (update_cash p d cur amt).1.get_day d =
        some { (p.get_day d).getD {} with
               cash := { ((p.get_day d).getD {}).cash with HKD := amt } }) ∧
    (cur = "CNY" →
      (update_cash p d cur amt).2 = none ∧
      (update_cash p d cur amt).1.get_day d =
        some { (p.get_day d).getD {} with
               cash := { ((p.get_day d).getD {}).cash with CNY := amt } }) := by
  refine ⟨?_, ?_, ?_, ?_⟩
  · rintro ⟨h1, h2, h3⟩
    cases h : dictGet p.data d with
    | some day => simp [update_cash, Portfolio.get_day, h, h1, h2, h3]
    | none =>
      simp [update_cash, create_portfolio_day, h, h1, h2, h3,
        Portfolio.get_day, Portfolio.add_day, dictGet_dictInsert_self]
  all_goals
    rintro rfl
    cases h : dictGet p.data d with
    | some day =>
      simp [update_cash, h, Portfolio.get_day, Portfolio.add_day,
        dictGet_dictInsert_self]
    | none =>
      simp [update_cash, create_portfolio_day, h, Portfolio.get_day,
        Portfolio.add_day, dictGet_dictInsert_self]

/-- Witness for C7: setCash of 100 USD on a day holding 5 USD / 6 HKD /
7 CNY overwrites USD and keeps HKD and CNY. -/
theorem update_cash_spec_witness :
    (update_cash ⟨[("2025-03-01", { cash := ⟨5, 6, 7⟩ })]⟩ "2025-03-01"
        "USD" 100).1.get_day "2025-03-01" =
      some { cash := ⟨100, 6, 7⟩ } :=
  ((update_cash_spec ⟨[("2025-03-01", { cash := ⟨5, 6, 7⟩ })]⟩ "2025-03-01"
      "USD" 100).2.1 rfl).2

/-! ### C8: upsert replaces, never duplicates -/

theorem dictInsert_cons_eq {α : Type} (k : String) (v1 v : α)
    (t : List (String × α)) : dictInsert ((k, v1) :: t) k v = (k, v) :: t := by
  simp [dictInsert]

theorem dictInsert_cons_ne {α : Type} {k1 k : String} (h : k1 ≠ k)
    (v1 v : α) (t : List (String × α)) :
    dictInsert ((k1, v1) :: t) k v = (k1, v1) :: dictInsert t k v := by
  simp [dictInsert, h]

theorem mem_keys_dictInsert {α : Type} (l : List (String × α)) (k a : String)
    (v : α) :
    a ∈ (dictInsert l k v).map Prod.fst ↔ a = k ∨ a ∈ l.map Prod.fst := by
  induction l with
  | nil => simp [dictInsert]
  | cons hd t ih =>
    obtain ⟨k1, v1⟩ := hd
    by_cases hk : k1 = k
    · subst hk
      rw [dictInsert_cons_eq]
      simp only [List.map_cons, List.mem_cons]
      tauto
    · rw [dictInsert_cons_ne hk]
      simp only [List.map_cons, List.mem_cons, ih]
      tauto

theorem nodup_keys_dictInsert {α : Type} (l : List (String × α)) (k : String)
    (v : α) (h : (l.map Prod.fst).Nodup) :
    ((dictInsert l k v).map Prod.fst).Nodup := by
  induction l with
  | nil => simp [dictInsert]
  | cons hd t ih =>
    obtain ⟨k1, v1⟩ := hd
    simp only [List.map_cons, List.nodup_cons] at h
    by_cases hk : k1 = k
    · subst hk
      simpa [dictInsert] using h
    · simp only [dictInsert, hk, if_false, List.map_cons, List.nodup_cons]
      refine ⟨?_, ih h.2⟩
      rw [mem_keys_dictInsert]
      rintro (rfl | hmem)
      · exact hk rfl
      · exact h.1 hmem

theorem countKey_cons {α : Type} (k1 : String) (v1 : α)
    (t : List (String × α)) (k : String) :
    countKey ((k1, v1) :: t) k = (if k1 = k then 1 else 0) + countKey t k := by
  by_cases h : k1 = k <;> simp [countKey, List.filter_cons, h, Nat.add_comm]

theorem countKey_eq_zero {α : Type} (l : List (String × α)) (k : String)
    (h : k ∉ l.map Prod.fst) : countKey l k = 0 := by
  induction l with
  | nil => simp [countKey]
  | cons hd t ih =>
    obtain ⟨k1, v1⟩ := hd
    simp only [List.map_cons, List.mem_cons] at h
    push_neg at h
    rw [countKey_cons, if_neg (fun hk => h.1 hk.symm), ih h.2]

theorem countKey_dictInsert {α : Type} (l : List (String × α)) (k : String)
    (v : α) (h : (l.map Prod.fst).Nodup) :
    countKey (dictInsert l k v) k = 1 := by
  induction l with
  | nil => simp [dictInsert, countKey]
  | cons hd t ih =>
    obtain ⟨k1, v1⟩ := hd
    simp only [List.map_cons, List.nodup_cons] at h
    by_cases hk : k1 = k
    · subst hk
      rw [dictInsert, if_pos rfl, countKey_cons, if_pos rfl,
        countKey_eq_zero t k1 h.1]
    · rw [dictInsert, if_neg hk, countKey_cons, if_neg hk, ih h.2]

/-- C8: adding two stocks with the same code to the same market in sequence
leaves exactly one entry for that code, carrying the second stock's fields;
an unknown market raises an UnknownMarket error. -/
theorem add_stock_upsert (p : Portfolio) (d m : String) (s1 s2 : Stock)
    (hcode : s1.code = s2.code)
    (hnodup : ∀ day0, p.get_day d = some day0 →
      (day0.stocks.AShares.map Prod.fst).Nodup ∧
      (day0.stocks.USStocks.map Prod.fst).Nodup ∧
      (day0.stocks.HKStocks.map Prod.fst).Nodup) :
    (m = "AShares" →
      (add_stock (add_stock p d m s1).1 d m s2).2 = none ∧
      ((add_stock (add_stock p d m s1).1 d m s2).1.get_day d).map
          (fun day => dictGet day.stocks.AShares s2.code) = some (some s2) ∧
      ((add_stock (add_stock p d m s1).1 d m s2).1.get_day d).map
          (fun day => countKey day.stocks.AShares s2.code) = some 1) ∧
    (m = "USStocks" →
      (add_stock (add_stock p d m s1).1 d m s2).2 = none ∧
      ((add_stock (add_stock p d m s1).1 d m s2).1.get_day d).map
          (fun day => dictGet day.stocks.USStocks s2.code) = some (some s2) ∧
      ((add_stock (add_stock p d m s1).1 d m s2).1.get_day d).map
          (fun day => countKey day.stocks.USStocks s2.code) = some 1) ∧
    (m = "HKStocks" →
      (add_stock (add_stock p d m s1).1 d m s2).2 = none ∧
      ((add_stock (add_stock p d m s1).1 d m s2).1.get_day d).map
          (fun day => dictGet day.stocks.HKStocks s2.code) = some (some s2) ∧
      ((add_stock (add_stock p d m s1).1 d m s2).1.get_day d).map
          (fun day => countKey day.stocks.HKStocks s2.code) = some 1) ∧
    ((m ≠ "AShares" ∧ m ≠ "USStocks" ∧ m ≠ "HKStocks") →
      (add_stock (add_stock p d m s1).1 d m s2).2 =
        some ("Unknown market: " ++ m)) := by
  refine ⟨?_, ?_, ?_, ?_⟩
  · rintro rfl
    cases h : dictGet p.data d with
    | some day0 =>
      obtain ⟨hA, _, _⟩ := hnodup day0 h
      simp [add_stock, Portfolio.get_day, Portfolio.add_day, h,
        dictGet_dictInsert_self, hcode, countKey_dictInsert,
        nodup_keys_dictInsert, hA]
    | none =>
      simp [add_stock, create_portfolio_day, Portfolio.get_day,
        Portfolio.add_day, h, dictGet_dictInsert_self, hcode, dictInsert,
        dictGet, countKey]
  · rintro rfl
    cases h : dictGet p.data d with
    | some day0 =>
      obtain ⟨_, hU, _⟩ := hnodup day0 h
      simp [add_stock, Portfolio.get_day, Portfolio.add_day, h,
        dictGet_dictInsert_self, hcode, countKey_dictInsert,
        nodup_keys_dictInsert, hU]
    | none =>
      simp [add_stock, create_portfolio_day, Portfolio.get_day,
        Portfolio.add_day, h, dictGet_dictInsert_self, hcode, dictInsert,
        dictGet, countKey]
  · rintro rfl
    cases h : dictGet p.data d with
    | some day0 =>
      obtain ⟨_, _, hH⟩ := hnodup day0 h
      simp [add_stock, Portfolio.get_day, Portfolio.add_day, h,
        dictGet_dictInsert_self, hcode, countKey_dictInsert,
        nodup_keys_dictInsert, hH]
    | none =>
      simp [add_stock, create_portfolio_day, Portfolio.get_day,
        Portfolio.add_day, h, dictGet_dictInsert_self, hcode, dictInsert,
        dictGet, countKey]
  · rintro ⟨h1, h2, h3⟩
    cases h : dictGet p.data d with
    | some day0 =>
      simp [add_stock, Portfolio.get_day, Portfolio.add_day, h, h1, h2, h3]
    | none =>
      simp [add_stock, create_portfolio_day, Portfolio.get_day,
        Portfolio.add_day, h, h1, h2, h3, dictGet_dictInsert_self]

/-- Witness for C8: two stocks with code X added to AShares of an empty
portfolio leave a single entry holding the second stock. -/
theorem add_stock_upsert_witness :
    (add_stock (add_stock ⟨[]⟩ "2025-03-01" "AShares"
        ⟨"a", "X", 1, 1, none⟩).1 "2025-03-01" "AShares"
        ⟨"b", "X", 2, 3, some 5⟩).2 = none ∧
    ((add_stock (add_stock ⟨[]⟩ "2025-03-01" "AShares"
        ⟨"a", "X", 1, 1, none⟩).1 "2025-03-01" "AShares"
        ⟨"b", "X", 2, 3, some 5⟩).1.get_day "2025-03-01").map
      (fun day => dictGet day.stocks.AShares (⟨"b", "X", 2, 3, some 5⟩ : Stock).code) =
        some (some ⟨"b", "X", 2, 3, some 5⟩) ∧
    ((add_stock (add_stock ⟨[]⟩ "2025-03-01" "AShares"
        ⟨"a", "X", 1, 1, none⟩).1 "2025-03-01" "AShares"
        ⟨"b", "X", 2, 3, some 5⟩).1.get_day "2025-03-01").map
      (fun day => countKey day.stocks.AShares (⟨"b", "X", 2, 3, some 5⟩ : Stock).code) =
        some 1 :=
  (add_stock_upsert ⟨[]⟩ "2025-03-01" "AShares" ⟨"a", "X", 1, 1, none⟩
      ⟨"b", "X", 2, 3, some 5⟩ rfl
      (fun day0 h => by simp [Portfolio.get_day, dictGet] at h)).1 rfl

/-! ### C1, C2: the valuation formula and the degrade-to-zero policy -/

theorem sumValues_nil : sumValues [] = some 0 := by
  simp [sumValues]

theorem sumValues_none {l : List Stock} (h : ∃ s ∈ l, s.price = none) :
    sumValues l = none := by
  obtain ⟨s, hs, hp⟩ := h
  have hmem : none ∈ l.map Stock.market_value :=
    List.mem_map.mpr ⟨s, hs, by simp [Stock.market_value, hp]⟩
  simp [sumValues, hmem]

theorem sumValues_all_some (l : List Stock)
    (h : ∀ s ∈ l, s.price.isSome) :
    sumValues l = some ((l.map (fun s => s.quantity * s.price.getD 0)).sum) := by
  induction l with
  | nil => simp [sumValues]
  | cons s t ih =>
    have hs : s.price.isSome := h s (List.mem_cons_self s t)
    obtain ⟨q, hq⟩ := Option.isSome_iff_exists.mp hs
    have ht : ∀ x ∈ t, x.price.isSome := fun x hx => h x (List.mem_cons_of_mem s hx)
    have hmv : Stock.market_value s = some (s.quantity * q) := by
      simp [Stock.market_value, hq]
    have hn : none ∉ t.map Stock.market_value := by
      rw [List.mem_map]
      rintro ⟨x, hx, hmx⟩
      have hxs := ht x hx
      cases hpx : x.price with
      | none => rw [hpx] at hxs; simp at hxs
      | some _ => simp [Stock.market_value, hpx] at hmx
    have hcond : none ∉ (s :: t).map Stock.market_value := by
      simp only [List.map_cons, List.mem_cons]
      rintro (hc | hc)
      · rw [hmv] at hc; simp at hc
      · exact hn hc
    have iht := ih ht
    rw [sumValues] at iht ⊢
    rw [if_neg hcond]
    rw [if_neg hn] at iht
    simp only [List.map_cons, hmv, List.reduceOption_cons_of_some,
      List.sum_cons, Option.some.injEq] at iht ⊢
    rw [iht, hq]
    simp

theorem sumValues_spec (l : List Stock) :
    (sumValues l).getD 0 =
      if l.all (fun s => s.price.isSome) then
        (l.map (fun s => s.quantity * s.price.getD 0)).sum
      else 0 := by
  by_cases h : l.all (fun s => s.price.isSome) = true
  · rw [if_pos h, sumValues_all_some l (fun s hs => List.all_eq_true.mp h s hs)]
    rfl
  · rw [if_neg h]
    have hex : ∃ s ∈ l, s.price = none := by
      rw [List.all_eq_true] at h
      push_neg at h
      obtain ⟨s, hs, hp⟩ := h
      refine ⟨s, hs, ?_⟩
      cases hps : s.price with
      | none => rfl
      | some _ => rw [hps] at hp; simp at hp
    rw [sumValues_none hex]
    rfl

theorem all_map_snd {α β : Type} (l : List (α × β)) (p : β → Bool) :
    (l.map Prod.snd).all p = l.all (fun kv => p kv.2) := by
  induction l with
  | nil => rfl
  | cons hd t ih => simp [ih]

/-- C1: the valuation computes totalUSD as the USStocks value plus the
AShares value over rates[CNY] plus the HKStocks value over rates[HKD] plus
the cash total in USD, then totalCNY = totalUSD × rates[CNY] and
totalHKD = totalUSD × rates[HKD]; an absent currency counts as rate 1.0
(market values degrade to 0 when a price is unresolved). -/
theorem update_total_assets_formula (day : PortfolioDay) (rates : RateMap) :
    (day.update_total_assets rates).totalAssets =
      (let r := fun c => (dictGet rates c).getD 1
       let mv := fun l : List (String × Stock) =>
         if l.all (fun kv => kv.2.price.isSome) then
           (l.map (fun kv => kv.2.quantity * kv.2.price.getD 0)).sum
         else 0
       let cashUSD := day.cash.USD + day.cash.HKD / r "HKD" +
         day.cash.CNY / r "CNY"
       let totalUSD := mv day.stocks.USStocks + mv day.stocks.AShares / r "CNY" +
         mv day.stocks.HKStocks / r "HKD" + cashUSD
       { USD := some totalUSD, HKD := some (totalUSD * r "HKD"),
         CNY := some (totalUSD * r "CNY") }) := by
  simp only [PortfolioDay.update_total_assets, StockHoldings.total_value,
    StockHoldings.total_value_by_market, StockHoldings.marketStocks,
    CashHoldings.total_in_currency, rateGet]
  simp only [↓reduceIte, Option.map_some', Option.getD_some, String.reduceEq,
    sumValues_spec, all_map_snd, List.map_map, Function.comp_def]

/-- C2: a market with at least one unresolved price has unresolved aggregate
value, the valuation treats it as contributing 0 (same result as an empty
market), and all three TotalAssets fields are still populated. -/
theorem market_degrades_to_zero (day : PortfolioDay) (rates : RateMap)
    (m : String) (hm : m = "AShares" ∨ m = "USStocks" ∨ m = "HKStocks")
    (h : ∃ s ∈ (day.stocks.marketStocks m).getD [], s.price = none) :
    day.stocks.total_value_by_market m = some none ∧
    (day.update_total_assets rates).totalAssets =
      (PortfolioDay.update_total_assets
        { day with stocks := day.stocks.clearMarket m } rates).totalAssets ∧
    (day.update_total_assets rates).totalAssets.USD.isSome = true ∧
    (day.update_total_assets rates).totalAssets.CNY.isSome = true ∧
    (day.update_total_assets rates).totalAssets.HKD.isSome = true := by
  rcases hm with rfl | rfl | rfl
  · have hsum : sumValues (day.stocks.AShares.map Prod.snd) = none := by
      apply sumValues_none
      simpa [StockHoldings.marketStocks] using h
    refine ⟨?_, ?_, ?_, ?_, ?_⟩
    · simp [StockHoldings.total_value_by_market, StockHoldings.marketStocks,
        hsum]
    · simp [PortfolioDay.update_total_assets, StockHoldings.total_value,
        StockHoldings.total_value_by_market, StockHoldings.marketStocks,
        StockHoldings.clearMarket, hsum, sumValues_nil]
    all_goals simp [PortfolioDay.update_total_assets]
  · have hsum : sumValues (day.stocks.USStocks.map Prod.snd) = none := by
      apply sumValues_none
      simpa [StockHoldings.marketStocks] using h
    refine ⟨?_, ?_, ?_, ?_, ?_⟩
    · simp [StockHoldings.total_value_by_market, StockHoldings.marketStocks,
        hsum]
    · simp [PortfolioDay.update_total_assets, StockHoldings.total_value,
        StockHoldings.total_value_by_market, StockHoldings.marketStocks,
        StockHoldings.clearMarket, hsum, sumValues_nil]
    all_goals simp [PortfolioDay.update_total_assets]
  · have hsum : sumValues (day.stocks.HKStocks.map Prod.snd) = none := by
      apply sumValues_none
      simpa [StockHoldings.marketStocks] using h
    refine ⟨?_, ?_, ?_, ?_, ?_⟩
    · simp [StockHoldings.total_value_by_market, StockHoldings.marketStocks,
        hsum]
    · simp [PortfolioDay.update_total_assets, StockHoldings.total_value,
        StockHoldings.total_value_by_market, StockHoldings.marketStocks,
        StockHoldings.clearMarket, hsum, sumValues_nil]
    all_goals simp [PortfolioDay.update_total_assets]

/-- Witness for C2: one AShares stock without a price makes the market
aggregate unresolved while the valuation still populates all totals. -/
theorem market_degrades_to_zero_witness :
    StockHoldings.total_value_by_market
        { AShares := [("X", ⟨"a", "X", 1, 1, none⟩)] } "AShares" =
      some none ∧
    (PortfolioDay.update_total_assets
        { stocks := { AShares := [("X", ⟨"a", "X", 1, 1, none⟩)] } }
        []).totalAssets.USD.isSome = true :=
  ⟨(market_degrades_to_zero
      { stocks := { AShares := [("X", ⟨"a", "X", 1, 1, none⟩)] } } []
      "AShares" (Or.inl rfl) ⟨⟨"a", "X", 1, 1, none⟩, by simp
        [StockHoldings.marketStocks], rfl⟩).1,
   (market_degrades_to_zero
      { stocks := { AShares := [("X", ⟨"a", "X", 1, 1, none⟩)] } } []
      "AShares" (Or.inl rfl) ⟨⟨"a", "X", 1, 1, none⟩, by simp
        [StockHoldings.marketStocks], rfl⟩).2.2.1⟩

/-! ### C5: batch update over a date range -/

theorem batchResults_map_fst (dates : List String) (fails : String → Bool) :
    (batchResults dates fails).map Prod.fst = dates := by
  induction dates with
  | nil => rfl
  | cons d rest ih => simp [batchResults, ih]

theorem batchResults_mem (dates : List String) (fails : String → Bool)
    (d : String) (b : Bool) (h : (d, b) ∈ batchResults dates fails) :
    b = !fails d := by
  induction dates with
  | nil => simp [batchResults] at h
  | cons d0 rest ih =>
    simp only [batchResults, List.mem_cons, Prod.mk.injEq] at h
    rcases h with ⟨rfl, rfl⟩ | h
    · rfl
    · exact ih h

theorem mergeSortLe_pairwise (l : List String) :
    List.Pairwise (fun a b : String => decide (a ≤ b) = true)
      (l.mergeSort fun a b => decide (a ≤ b)) :=
  List.sorted_mergeSort
    (fun a b c hab hbc => by
      simp only [decide_eq_true_eq] at hab hbc ⊢
      exact le_trans hab hbc)
    (fun a b => by
      simp only [Bool.or_eq_true, decide_eq_true_eq]
      exact le_total a b)
    l

theorem update_all_dates_eq (p : Portfolio) (start_date end_date : Option String)
    (fails : String → Bool) (hne : p.data ≠ []) :
    update_all_dates p start_date end_date fails =
      (batchResults
        (((p.data.map Prod.fst).mergeSort (fun a b => a ≤ b)).filter
          (keepDate start_date end_date)) fails, 1) := by
  have hisE : ((p.data.map Prod.fst).mergeSort (fun a b => a ≤ b)).isEmpty = false := by
    cases hms : (p.data.map Prod.fst).mergeSort (fun a b => a ≤ b) with
    | nil =>
      exfalso
      have hlen := congrArg List.length hms
      rw [List.length_mergeSort] at hlen
      simp only [List.length_map, List.length_nil] at hlen
      exact hne (List.length_eq_zero.mp hlen)
    | cons a t => rfl
  by_cases hb : (optTruthy start_date || optTruthy end_date) = true
  · simp only [update_all_dates, hisE, Bool.false_eq_true, ↓reduceIte, hb]
  · have hs : optTruthy start_date = false := by
      cases hval : optTruthy start_date
      · rfl
      · exact absurd (by simp [hval]) hb
    have he : optTruthy end_date = false := by
      cases hval : optTruthy end_date
      · rfl
      · exact absurd (by simp [hval]) hb
    have hfilter :
        ((p.data.map Prod.fst).mergeSort (fun a b => a ≤ b)).filter
          (keepDate start_date end_date) =
        (p.data.map Prod.fst).mergeSort (fun a b => a ≤ b) :=
      List.filter_eq_self.mpr (fun a _ => by simp [keepDate, hs, he])
    simp only [update_all_dates, hisE, Bool.false_eq_true, ↓reduceIte, hs, he,
      Bool.or_self, hfilter]

/-- C5 (amended): the batch visits exactly the portfolio dates inside
[startDate, endDate], in ascending order, records failure only for the
dates whose processing raises while continuing with the rest, and saves
exactly once — provided the portfolio has at least one date. -/
theorem update_all_dates_spec (p : Portfolio)
    (start_date end_date : Option String) (fails : String → Bool)
    (hne : p.data ≠ []) :
    (∀ d, d ∈ (update_all_dates p start_date end_date fails).1.map Prod.fst ↔
      (d ∈ p.data.map Prod.fst ∧ keepDate start_date end_date d = true)) ∧
    ((update_all_dates p start_date end_date fails).1.map Prod.fst).Pairwise
      (· ≤ ·) ∧
    (∀ d b, (d, b) ∈ (update_all_dates p start_date end_date fails).1 →
      b = !fails d) ∧
    (update_all_dates p start_date end_date fails).2 = 1 := by
  rw [update_all_dates_eq p start_date end_date fails hne]
  refine ⟨?_, ?_, ?_, rfl⟩
  · intro d
    rw [batchResults_map_fst, List.mem_filter, List.mem_mergeSort]
  · rw [batchResults_map_fst]
    exact ((mergeSortLe_pairwise (p.data.map Prod.fst)).sublist
      (List.filter_sublist _)).imp (fun hab => by simpa using hab)
  · intro d b hmem
    exact batchResults_mem _ fails d b hmem

/-- Witness for C5 on a two-day portfolio with no failures. -/
theorem update_all_dates_spec_witness :
    (update_all_dates ⟨[("2025-01-02", {}), ("2025-01-01", {})]⟩ none none
      (fun _ => false)).2 = 1 :=
  (update_all_dates_spec ⟨[("2025-01-02", {}), ("2025-01-01", {})]⟩ none none
    (fun _ => false) (by simp)).2.2.2

/-- Counterexample to C5 as stated: on a portfolio with no dates the batch
returns an empty result and performs no save at all, so the portfolio is
not saved exactly once. -/
theorem empty_portfolio_not_saved :
    (update_all_dates ⟨[]⟩ none none (fun _ => false)).2 = 0 ∧
    (update_all_dates ⟨[]⟩ none none (fun _ => false)).2 ≠ 1 := by
  constructor <;> simp [update_all_dates]

/-! ### C4: rate-fetch fallback behaviour -/

/-- C4 (amended): when the cache has no fresh entry for the key and the
provider fails, the lookup returns the static default table (for base USD:
USD 1.0, CNY 7.0, HKD 7.8) and leaves the cache untouched, regardless of
any stale cached value; the fresh-cache-hit case never reaches a provider. -/
theorem rate_fetch_default_fallback (st : RateCacheState) (now : Nat)
    (pr : ProviderResult) (date_str base_currency : String)
    (targets : Option (List String))
    (hfail : providerFails pr = true)
    (hmiss : cacheHit st now (date_str ++ "_" ++ base_currency) = false) :
    get_exchange_rates st now pr date_str base_currency targets =
      (getDefaultExchangeRates base_currency targets, st) ∧
    dictGet (getDefaultExchangeRates "USD" targets).rates "USD" = some 1 ∧
    dictGet (getDefaultExchangeRates "USD" targets).rates "CNY" = some 7 ∧
    dictGet (getDefaultExchangeRates "USD" targets).rates "HKD" = some (39/5) := by
  refine ⟨?_, rfl, rfl, rfl⟩
  cases pr with
  | failure => simp [get_exchange_rates, hmiss]
  | response status data =>
    have hstatus : ¬ (status = 200) := by
      simpa [providerFails] using hfail
    simp [get_exchange_rates, hmiss, hstatus]

/-- Witness for C4 on an empty cache with a failing provider. -/
theorem rate_fetch_default_fallback_witness :
    get_exchange_rates {} 0 ProviderResult.failure "2025-03-01" "USD" none =
      (getDefaultExchangeRates "USD" none, {}) :=
  (rate_fetch_default_fallback {} 0 ProviderResult.failure "2025-03-01" "USD"
    none rfl rfl).1

/-- Counterexample to C4 as stated: with a stale cached entry for the key
(one hour old or more) and a failing provider, the code returns the static
default table, not the cached value — the stale cache is never consulted. -/
theorem stale_cache_ignored_on_failure :
    dictGet (RateCacheState.cache
        { cache := [("2025-03-01_USD", { rates := [("CNY", 8)] })],
          last_update := some 0 }) "2025-03-01_USD" =
      some { rates := [("CNY", 8)] } ∧
    (get_exchange_rates
        { cache := [("2025-03-01_USD", { rates := [("CNY", 8)] })],
          last_update := some 0 }
        7200 ProviderResult.failure "2025-03-01" "USD" none).1.rates ≠
      [("CNY", 8)] ∧
    (get_exchange_rates
        { cache := [("2025-03-01_USD", { rates := [("CNY", 8)] })],
          last_update := some 0 }
        7200 ProviderResult.failure "2025-03-01" "USD" none).1 =
      getDefaultExchangeRates "USD" none := by
  refine ⟨rfl, ?_, rfl⟩
  decide

/-! ### C3: the valuation refresh stores no exchange-rate snapshot -/

/-- C3: evaluating the valuation refresh on a concrete day shows the
complete resulting PortfolioDay: cash, totalAssets and stocks only — the
rates used (CNY 7, HKD 7.8) appear nowhere in the stored day, because
models/portfolio.py defines no exchangeRates field. -/
theorem refresh_valuation_stores_no_rates :
    manager_update_total_assets
        ⟨[("2025-03-01", { cash := ⟨100, 0, 0⟩ })]⟩ "2025-03-01"
        [("CNY", 7), ("HKD", 39/5)] =
      ⟨[("2025-03-01",
         { cash := ⟨100, 0, 0⟩,
           totalAssets := { USD := some 100, HKD := some 780, CNY := some 700 },
           stocks := {} })]⟩ := by
  simp only [manager_update_total_assets, Portfolio.get_day, Portfolio.add_day,
    dictGet, dictInsert, if_pos, PortfolioDay.update_total_assets,
    StockHoldings.total_value, StockHoldings.total_value_by_market,
    StockHoldings.marketStocks, CashHoldings.total_in_currency, rateGet,
    sumValues_nil, String.reduceEq, ↓reduceIte, Option.map_some',
    Option.getD_some, List.map_nil]
  norm_num

end AssetTracker
